import Mathlib

/-!
Verification development for the likhai-pluma-chat transcript reducer.

The definitions below are a shallow embedding of the frontend chat page
(`src/frontend/src/pages/Chat.tsx` and the revised chat page shipped as an
unnamed source file) into Lean: JavaScript strings become `String`, the
message array becomes `List Msg`, the mutable `stepIdxRef` registry becomes a
function `String → Option Nat`, and React `setMessages` updates become pure
state transformers on `ChatState`.
-/

namespace LikhaiPluma

/-! ## Character classes used by the token joiner

The source tests characters with JavaScript regular expressions.  We model the
classes on Unicode code points (`Char.toNat`); the comments give the bounds as
characters. -/

/-- Code points matched by the regex class `[A-Za-z0-9]`
(65-90 = A-Z, 97-122 = a-z, 48-57 = 0-9). -/
def isAlnumChar (c : Char) : Bool :=
  (65 ≤ c.toNat && c.toNat ≤ 90) || (97 ≤ c.toNat && c.toNat ≤ 122) ||
  (48 ≤ c.toNat && c.toNat ≤ 57)

/-- Code points matched by the regex class `[A-Z0-9]` (65-90 = A-Z, 48-57 = 0-9). -/
def isUpperDigitChar (c : Char) : Bool :=
  (65 ≤ c.toNat && c.toNat ≤ 90) || (48 ≤ c.toNat && c.toNat ≤ 57)

/-- Code points matched by the regex class `[A-Z]`. -/
def isUpperChar (c : Char) : Bool :=
  65 ≤ c.toNat && c.toNat ≤ 90

/-- Code points matched by the regex class `[a-z]`. -/
def isLowerChar (c : Char) : Bool :=
  97 ≤ c.toNat && c.toNat ≤ 122

/-- Code points matched by the JavaScript regex class `\s`:
space (32), tab (9), line feed (10), carriage return (13), vertical tab (11),
form feed (12), no-break space (160), ogham space mark (5760), the en-quad
through hair-space block (8192-8202), line separator (8232), paragraph
separator (8233), narrow no-break space (8239), medium mathematical space
(8287), ideographic space (12288) and the byte order mark (65279). -/
def isJsWhitespace (c : Char) : Bool :=
  c.toNat = 32 || c.toNat = 9 || c.toNat = 10 || c.toNat = 13 ||
  c.toNat = 11 || c.toNat = 12 || c.toNat = 160 || c.toNat = 5760 ||
  (8192 ≤ c.toNat && c.toNat ≤ 8202) || c.toNat = 8232 || c.toNat = 8233 ||
  c.toNat = 8239 || c.toNat = 8287 || c.toNat = 12288 || c.toNat = 65279

/-- Test of the regex `/[A-Za-z0-9]$/`: the last character is alphanumeric. -/
def endsAlnum (s : String) : Bool :=
  match s.data.getLast? with
  | some c => isAlnumChar c
  | none => false

/-- Test of the regex `/^[A-Za-z0-9]/`: the first character is alphanumeric. -/
def startsAlnum (s : String) : Bool :=
  match s.data.head? with
  | some c => isAlnumChar c
  | none => false

/-- Test of the regex `/\s$/`: the last character is JavaScript whitespace. -/
def endsJsWs (s : String) : Bool :=
  match s.data.getLast? with
  | some c => isJsWhitespace c
  | none => false

/-- Test of the regex `/^\s/`: the first character is JavaScript whitespace. -/
def startsJsWs (s : String) : Bool :=
  match s.data.head? with
  | some c => isJsWhitespace c
  | none => false

/-- Result of the match `prevText.match(/[A-Za-z0-9]+$/)`: the trailing
alphanumeric run of the string (empty when the string does not end in an
alphanumeric character, matching the `|| [""]` fallback in the source). -/
def trailingAlnumRun (s : String) : List Char :=
  (s.data.reverse.takeWhile isAlnumChar).reverse

/-- Result of the match `chunk.match(/^[A-Za-z0-9]+/)`: the leading
alphanumeric run of the string. -/
def leadingAlnumRun (s : String) : List Char :=
  s.data.takeWhile isAlnumChar

/-- Test of the regex `/^[A-Z0-9]+$/` used by the local `isAllCapsOrDigits`
helper: nonempty and every character is an uppercase letter or digit. -/
def isAllCapsOrDigits (l : List Char) : Bool :=
  !l.isEmpty && l.all isUpperDigitChar

/-- Test of the regex `/^[A-Z][a-z]/` on a token: an uppercase letter followed
by a lowercase letter. -/
def startsUpperThenLower : List Char → Bool
  | a :: b :: _ => isUpperChar a && isLowerChar b
  | _ => false

/-- Boolean prefix test on character lists (first argument is the candidate
leading segment).  Models `String.prototype.startsWith`. -/
def chListStarts : List Char → List Char → Bool
  | [], _ => true
  | _ :: _, [] => false
  | p :: ps, c :: cs => p == c && chListStarts ps cs

/-- Model of the JavaScript call `s.startsWith(pre)`. -/
def strStartsWith (s pre : String) : Bool :=
  chListStarts pre.data s.data

/-- Characters removed from both ends by `String.prototype.trim`. -/
def jsTrimList (l : List Char) : List Char :=
  ((l.dropWhile isJsWhitespace).reverse.dropWhile isJsWhitespace).reverse

/-- Model of the JavaScript call `s.trim()`. -/
def jsTrim (s : String) : String :=
  ⟨jsTrimList s.data⟩

/-! ## TokenJoiner

`concatChunk` is the token joiner of the revised chat page (the unnamed source
file `part_004`, lines 97-131).  Each branch mirrors one return site of the
source. -/

/-- Embedding of `concatChunk(prevText, chunk)` from the revised chat page:
smarter concatenation that avoids breaking acronyms while inserting spaces
between word boundaries when providers stream chunks without them. -/
def concatChunk (prevText chunk : String) : String :=
  if chunk = "" then prevText
  else if prevText = "" then chunk
  else if endsJsWs prevText || startsJsWs chunk then prevText ++ chunk
  else if endsAlnum prevText && startsAlnum chunk then
    let lastToken := trailingAlnumRun prevText
    let firstToken := leadingAlnumRun chunk
    if isAllCapsOrDigits lastToken && isAllCapsOrDigits firstToken then
      prevText ++ chunk
    else if startsUpperThenLower firstToken then
      prevText ++ " " ++ chunk
    else
      prevText ++ " " ++ chunk
  else prevText ++ chunk

/-! ## Data model

Embedding of the `Msg` type and the component state of the chat page.  The
JavaScript fields `pending`/`completed` are either `true` or deleted; rendering
treats a deleted field and `false` alike, so both are modelled as `Bool`.  The
mutable `stepIdxRef.current` object is modelled as a total function from step
keys to optional indices. -/

inductive Role
  | user
  | assistant
deriving DecidableEq, Repr

structure Msg where
  role : Role
  content : String
  pending : Bool
  completed : Bool
deriving DecidableEq, Repr

/-- Component state of the chat page: the transcript, the step-key registry
`stepIdxRef`, and the `sending`/`isStreaming` flags.  The extra counter
`openStreams` records how many event-stream clients have been opened and not
closed, which the page itself never tracks explicitly. -/
structure ChatState where
  threadId : Option Nat
  messages : List Msg
  stepIdx : String → Option Nat
  sending : Bool
  isStreaming : Bool
  openStreams : Nat

/-- Update of `stepIdxRef.current[opts.key] = idx` when a key is supplied. -/
def registerKey (key : Option String) (idx : Nat) (f : String → Option Nat) :
    String → Option Nat :=
  match key with
  | none => f
  | some k => fun s => if s = k then some idx else f s

/-- Embedding of `replaceOrPushAssistant(content, opts)` (Chat.tsx lines
48-62): if the last message is an assistant message with empty content,
overwrite its content, pending and completed fields in place and register the
key against that index; otherwise append a new assistant message and register
the key against the new index. -/
def replaceOrPushAssistant (content : String) (pending completed : Bool)
    (key : Option String) (st : ChatState) : ChatState :=
  match st.messages.getLast? with
  | some last =>
    if last.role = Role.assistant ∧ (last.content = "" ∨ jsTrim last.content = "") then
      { st with
        messages := st.messages.dropLast ++
          [{ last with content := content, pending := pending, completed := completed }],
        stepIdx := registerKey key (st.messages.length - 1) st.stepIdx }
    else
      { st with
        messages := st.messages ++ [⟨Role.assistant, content, pending, completed⟩],
        stepIdx := registerKey key st.messages.length st.stepIdx }
  | none =>
    { st with
      messages := st.messages ++ [⟨Role.assistant, content, pending, completed⟩],
      stepIdx := registerKey key st.messages.length st.stepIdx }

/-- Embedding of `replaceStep(key, content, opts)` (Chat.tsx lines 65-77):
look the key up in the registry; when absent, or when the remembered index is
out of range, return the transcript unchanged; otherwise overwrite the fields
of the remembered message. -/
def replaceStep (key : String) (content : String) (pending completed : Bool)
    (st : ChatState) : ChatState :=
  match st.stepIdx key with
  | none => st
  | some idx =>
    match st.messages[idx]? with
    | none => st
    | some msg =>
      { st with
        messages := st.messages.set idx
          { msg with content := content, pending := pending, completed := completed } }

/-- Embedding of `pushAssistantMsg(content, opts)` (Chat.tsx lines 39-45):
unconditionally append a new assistant message, remembering its index when a
key is supplied. -/
def pushAssistantMsg (content : String) (pending : Bool) (key : Option String)
    (st : ChatState) : ChatState :=
  { st with
    messages := st.messages ++ [⟨Role.assistant, content, pending, false⟩],
    stepIdx := registerKey key st.messages.length st.stepIdx }

/-! ## Chat-mode event handlers (Chat.tsx lines 497-606) -/

/-- Embedding of the chat token handler (Chat.tsx lines 506-523): when the
last message is an assistant message, splice the chunk onto its content,
inserting a single space exactly when the previous text ends alphanumeric and
the chunk starts alphanumeric. -/
def chatTokenHandler (chunk : String) (st : ChatState) : ChatState :=
  match st.messages.getLast? with
  | some last =>
    if last.role = Role.assistant then
      let prevText := last.content
      let joined :=
        if endsAlnum prevText && startsAlnum chunk then prevText ++ " " ++ chunk
        else prevText ++ chunk
      { st with messages := st.messages.dropLast ++ [{ last with content := joined }] }
    else st
  | none => st

/-- Formatted warning derived from an error payload: the detail field when the
parse succeeded and the field is a nonempty string, otherwise the generic
fallback. -/
def errMsgOf (detail : Option String) : String :=
  match detail with
  | some d => if d = "" then "⚠️ Sorry, something went wrong." else "⚠️ " ++ d
  | none => "⚠️ Sorry, something went wrong."

/-- Embedding of the chat application-error handler (Chat.tsx lines 524-535):
write the formatted warning into the last message only when it is an assistant
message whose content is the empty string. -/
def chatErrorHandler (detail : Option String) (st : ChatState) : ChatState :=
  match st.messages.getLast? with
  | some last =>
    if last.role = Role.assistant ∧ last.content = "" then
      { st with messages := st.messages.dropLast ++ [{ last with content := errMsgOf detail }] }
    else st
  | none => st

/-- Embedding of the chat transport error callback (Chat.tsx lines 594-605):
clear the streaming flag and write the generic warning into the last message
only when it is an assistant message whose content is the empty string. -/
def chatTransportError (st : ChatState) : ChatState :=
  let st1 : ChatState := { st with isStreaming := false }
  match st1.messages.getLast? with
  | some last =>
    if last.role = Role.assistant ∧ last.content = "" then
      { st1 with
        messages := st1.messages.dropLast ++
          [{ last with content := "⚠️ Sorry, something went wrong." }] }
    else st1
  | none => st1

/-- History messages returned by the reload collaborator `getHistory`. -/
structure HistMsg where
  role : String
  content : String
deriving DecidableEq, Repr

/-- Embedding of the chat done handler reload (Chat.tsx lines 574-591): clear
the streaming flag and wholesale-replace the transcript with the filtered,
mapped canonical history.  The step registry is not touched. -/
def chatDoneReload (hist : List HistMsg) (st : ChatState) : ChatState :=
  { st with
    isStreaming := false,
    messages :=
      (hist.filter (fun m => m.role = "user" || m.role = "assistant")).map
        (fun m => ⟨if m.role = "user" then Role.user else Role.assistant,
                   m.content, false, false⟩) }

/-- Events a chat-mode stream delivers, with the payload already decoded the
way the handlers decode it: a token carries raw text, an error carries the
optional `detail` field of its JSON payload, and `done` carries the canonical
history fetched by the reload. -/
inductive ChatEvent
  | ready
  | token (data : String)
  | errorEv (detail : Option String)
  | doneEv (hist : List HistMsg)

/-- Dispatch of one chat-mode event to its handler. -/
def chatHandleEvent (ev : ChatEvent) (st : ChatState) : ChatState :=
  match ev with
  | ChatEvent.ready => { st with isStreaming := true }
  | ChatEvent.token chunk => chatTokenHandler chunk st
  | ChatEvent.errorEv d => chatErrorHandler d st
  | ChatEvent.doneEv hist => chatDoneReload hist st

/-- Fold of a list of chat-mode events over the state, in arrival order. -/
def chatFold (evs : List ChatEvent) (st : ChatState) : ChatState :=
  evs.foldl (fun s e => chatHandleEvent e s) st

/-! ## Deep-research handlers (Chat.tsx lines 281-423) -/

/-- Embedding of the deep-research ready handler (Chat.tsx lines 294-301):
set the streaming flag, clear all step indices for the fresh run, and replace
the initial empty assistant bubble with a pending status row registered under
the key `status`. -/
def drReadyHandler (st : ChatState) : ChatState :=
  let st1 : ChatState := { st with isStreaming := true, stepIdx := fun _ => none }
  replaceOrPushAssistant "Starting deep research…" true false (some "status") st1

/-- Embedding of the final-summary append inside the deep-research done
handler (Chat.tsx lines 392-402): when the last message is an assistant
message whose content already begins with `Final summary`, append nothing;
otherwise append the formatted final summary. -/
def drAppendFinal (s : String) (st : ChatState) : ChatState :=
  let finalText := "Final summary\n\n" ++ jsTrim s
  match st.messages.getLast? with
  | some last =>
    if last.role = Role.assistant ∧ strStartsWith last.content "Final summary" = true then
      st
    else
      { st with messages := st.messages ++ [⟨Role.assistant, finalText, false, false⟩] }
  | none =>
    { st with messages := st.messages ++ [⟨Role.assistant, finalText, false, false⟩] }

/-- Embedding of the deep-research done handler (Chat.tsx lines 388-408): the
parameter is the `summary` field of the parsed terminal frame (`none` when the
frame did not parse or carried no summary; the empty string is falsy in the
source and is skipped the same way).  The handler clears the streaming flag,
appends the final summary unless the last message already carries one, and
marks the status row completed when a status index is registered. -/
def drDoneHandler (summary : Option String) (st : ChatState) : ChatState :=
  let st1 : ChatState := { st with isStreaming := false }
  let st2 :=
    match summary with
    | some s => if s = "" then st1 else drAppendFinal s st1
    | none => st1
  match st2.stepIdx "status" with
  | some _ => replaceStep "status" "Deep Research Complete" false true st2
  | none => st2

/-! ## Send action skeleton (Chat.tsx lines 162-614)

The send function is an async closure; in the no-attachment path its body up
to the `sse.on(...)` registration runs without suspension, and the `finally`
block that clears `sending` runs as soon as that body finishes — the stream
stays open afterwards and its events arrive later. -/

/-- Embedding of the entry of `send()` (Chat.tsx lines 162-171 and 274-277)
for the no-attachment path: the guard rejects when there is no thread or a
send is already in progress; an all-whitespace input resets `sending` and
stops; otherwise the trimmed user message and the optimistic empty assistant
placeholder are appended.  The second component tells whether the send
proceeds.  The step registry is not touched. -/
def sendBegin (userText : String) (st : ChatState) : ChatState × Bool :=
  if st.threadId = none ∨ st.sending = true then (st, false)
  else if jsTrim userText = "" then ({ st with sending := false }, false)
  else
    ({ st with
        sending := true,
        messages := st.messages ++
          [⟨Role.user, jsTrim userText, false, false⟩,
           ⟨Role.assistant, "", false, false⟩] }, true)

/-- Embedding of a whole chat-mode `send()` call (Chat.tsx lines 162-171,
274-277, 487-propagate and the `finally` block at 608-613): after the entry,
`streamChat` opens the event stream, `sse.on` registers the callbacks and
returns, and the `finally` block clears `sending` — all before any stream
event is processed and without closing the stream. -/
def sendChat (userText : String) (st : ChatState) : ChatState :=
  let r := sendBegin userText st
  if r.2 then
    let st2 : ChatState := { r.1 with openStreams := r.1.openStreams + 1 }
    { st2 with sending := false }
  else r.1

/-! ## EDA branch (Chat.tsx lines 424-448) -/

/-- JavaScript values as far as the EDA branch observes them: the branch only
tests truthiness of the result of `JSON.parse` before handing it to the
backend. -/
inductive JsVal
  | nullV
  | boolV (b : Bool)
  | numV (q : Int)
  | strV (s : String)
  | arrV
  | objV

/-- JavaScript truthiness of a parsed JSON value. -/
def JsVal.truthy : JsVal → Bool
  | JsVal.nullV => false
  | JsVal.boolV b => b
  | JsVal.numV q => q != 0
  | JsVal.strV s => s != ""
  | JsVal.arrV => true
  | JsVal.objV => true

/-- Instructional assistant message appended by the EDA short-circuit. -/
def edaHintMsg : Msg :=
  ⟨Role.assistant, "📁 For EDA, attach a CSV/XLSX file or paste JSON data in the message.", false, false⟩

/-- Embedding of the EDA branch of `send()` for the no-attachment path
(Chat.tsx lines 433-448), up to the point where the backend is invoked.  The
parameter is the outcome of `JSON.parse` on the prompt (`none` when the parse
throws).  The second component records whether `edaProcess` is invoked; when
it is not, the returned state is final for the branch.  When the parse yields
a falsy value or throws, a single instructional message is appended and the
backend is never called; otherwise the pending status row is created and the
backend call proceeds (its response rendering lies past the await and is not
needed by states that never reach it). -/
def edaBranchNoFile (parse : Option JsVal) (st : ChatState) : ChatState × Bool :=
  match parse with
  | none => ({ st with messages := st.messages ++ [edaHintMsg] }, false)
  | some v =>
    if v.truthy = false then
      ({ st with messages := st.messages ++ [edaHintMsg] }, false)
    else
      (replaceOrPushAssistant "Starting EDA…" true false (some "eda-status") st, true)

/-! ## Supporting lemmas about the character classes -/

theorem upperDigit_isAlnum {c : Char} (h : isUpperDigitChar c = true) :
    isAlnumChar c = true := by
  simp [isUpperDigitChar, isAlnumChar] at *
  omega

theorem upperDigit_not_ws {c : Char} (h : isUpperDigitChar c = true) :
    isJsWhitespace c = false := by
  simp [isUpperDigitChar, isJsWhitespace] at *
  omega

theorem chListStarts_append (p rest : List Char) :
    chListStarts p (p ++ rest) = true := by
  induction p with
  | nil => rfl
  | cons a as ih => simp [chListStarts, ih]

/-! ## Claim C10 -/

/-- C10: for every pair of strings, `concatChunk(prev, chunk)` is either
`prev ++ chunk` or `prev ++ " " ++ chunk`; both inputs are preserved verbatim
and in order, and at most one space is inserted at the boundary. -/
theorem concatChunk_preserves_chunks (prevText chunk : String) :
    concatChunk prevText chunk = prevText ++ chunk ∨
    concatChunk prevText chunk = prevText ++ " " ++ chunk := by
  unfold concatChunk
  split_ifs with h1 h2 h3 h4
  · left; rw [h1, String.append_empty]
  · left; rw [h2, String.empty_append]
  · left; rfl
  · dsimp only
    split_ifs with h5 h6
    · left; rfl
    · right; rfl
    · right; rfl
  · left; rfl

/-! ## Claim C2 -/

/-- C2: for all uppercase/digit-only strings `A` and `B`, the token joiner
returns `A ++ B` with no inserted space, preserving multi-chunk acronyms. -/
theorem concatChunk_acronym_append (A B : String)
    (hA : A.data.all isUpperDigitChar = true)
    (hB : B.data.all isUpperDigitChar = true) :
    concatChunk A B = A ++ B := by
  by_cases hBe : B = ""
  · rw [concatChunk, if_pos hBe, hBe, String.append_empty]
  by_cases hAe : A = ""
  · rw [concatChunk, if_neg hBe, if_pos hAe, hAe, String.empty_append]
  have hAd : A.data ≠ [] := fun h => hAe (by cases A; simp_all)
  have hBd : B.data ≠ [] := fun h => hBe (by cases B; simp_all)
  have ha : A.data.getLast? = some (A.data.getLast hAd) :=
    List.getLast?_eq_getLast A.data hAd
  have hb : B.data.head? = some (B.data.head hBd) :=
    List.head?_eq_head hBd
  set a := A.data.getLast hAd with ha_def
  set b := B.data.head hBd with hb_def
  have haU : isUpperDigitChar a = true :=
    List.all_eq_true.mp hA a (List.getLast_mem hAd)
  have hbU : isUpperDigitChar b = true :=
    List.all_eq_true.mp hB b (List.head_mem hBd)
  have hws1 : endsJsWs A = false := by
    unfold endsJsWs; rw [ha]; exact upperDigit_not_ws haU
  have hws2 : startsJsWs B = false := by
    unfold startsJsWs; rw [hb]; exact upperDigit_not_ws hbU
  have hal1 : endsAlnum A = true := by
    unfold endsAlnum; rw [ha]; exact upperDigit_isAlnum haU
  have hal2 : startsAlnum B = true := by
    unfold startsAlnum; rw [hb]; exact upperDigit_isAlnum hbU
  have htrail : trailingAlnumRun A = A.data := by
    unfold trailingAlnumRun
    rw [List.takeWhile_eq_self_iff.mpr, List.reverse_reverse]
    intro c hc
    exact upperDigit_isAlnum (List.all_eq_true.mp hA c (List.mem_reverse.mp hc))
  have hlead : leadingAlnumRun B = B.data := by
    unfold leadingAlnumRun
    rw [List.takeWhile_eq_self_iff.mpr]
    intro c hc
    exact upperDigit_isAlnum (List.all_eq_true.mp hB c hc)
  have hcap1 : isAllCapsOrDigits (trailingAlnumRun A) = true := by
    rw [htrail]; simp [isAllCapsOrDigits, hA, hAd, List.isEmpty_iff]
  have hcap2 : isAllCapsOrDigits (leadingAlnumRun B) = true := by
    rw [hlead]; simp [isAllCapsOrDigits, hB, hBd, List.isEmpty_iff]
  rw [concatChunk]
  simp [hBe, hAe, hws1, hws2, hal1, hal2, hcap1, hcap2]

/-- Witness for C2 at the concrete input from the spec: joining the chunks
`"B"` and `"SP"` yields `"BSP"` with no inserted space. -/
theorem concatChunk_acronym_append_wit :
    "B".data.all isUpperDigitChar = true ∧ "SP".data.all isUpperDigitChar = true ∧
    concatChunk "B" "SP" = "BSP" := by
  refine ⟨by decide, by decide, ?_⟩
  have h := concatChunk_acronym_append "B" "SP" (by decide) (by decide)
  rw [h]
  rfl

/-! ## Supporting lemmas about the state operations -/

theorem replaceStep_length (key content : String) (p q : Bool) (st : ChatState) :
    (replaceStep key content p q st).messages.length = st.messages.length := by
  unfold replaceStep
  cases hk : st.stepIdx key with
  | none => rfl
  | some idx =>
    dsimp only
    cases hm : st.messages[idx]? with
    | none => rfl
    | some msg =>
      dsimp only
      rw [List.length_set]

theorem replaceStep_stepIdx_eq (key content : String) (p q : Bool) (st : ChatState) :
    (replaceStep key content p q st).stepIdx = st.stepIdx := by
  unfold replaceStep
  cases hk : st.stepIdx key with
  | none => rfl
  | some idx =>
    dsimp only
    cases hm : st.messages[idx]? with
    | none => rfl
    | some msg => rfl

theorem replaceStep_getLast_keep (key content : String) (p q : Bool) (st : ChatState)
    (h : ∀ i, st.stepIdx key = some i → i + 1 < st.messages.length) :
    (replaceStep key content p q st).messages.getLast? = st.messages.getLast? := by
  unfold replaceStep
  cases hk : st.stepIdx key with
  | none => rfl
  | some i =>
    dsimp only
    cases hm : st.messages[i]? with
    | none => rfl
    | some msg =>
      have hi : i + 1 < st.messages.length := h i hk
      dsimp only
      rw [List.getLast?_eq_getElem?, List.getLast?_eq_getElem?, List.length_set,
        List.getElem?_set_ne (by omega)]

theorem drAppendFinal_msgs (s : String) (st : ChatState)
    (h : ∀ last, st.messages.getLast? = some last →
      ¬(last.role = Role.assistant ∧ strStartsWith last.content "Final summary" = true)) :
    (drAppendFinal s st).messages =
      st.messages ++ [⟨Role.assistant, "Final summary\n\n" ++ jsTrim s, false, false⟩] := by
  unfold drAppendFinal
  cases hl : st.messages.getLast? with
  | none => rfl
  | some last =>
    dsimp only
    rw [if_neg (h last hl)]

theorem drAppendFinal_noop (s : String) (st : ChatState) (last : Msg)
    (hl : st.messages.getLast? = some last) (hrole : last.role = Role.assistant)
    (hsw : strStartsWith last.content "Final summary" = true) :
    drAppendFinal s st = st := by
  unfold drAppendFinal
  simp only [hl]
  rw [if_pos ⟨hrole, hsw⟩]

theorem drAppendFinal_stepIdx (s : String) (st : ChatState) :
    (drAppendFinal s st).stepIdx = st.stepIdx := by
  unfold drAppendFinal
  cases hl : st.messages.getLast? with
  | none => rfl
  | some last =>
    dsimp only
    split_ifs <;> rfl

theorem strStartsWith_finalText (x : String) :
    strStartsWith ("Final summary\n\n" ++ x) "Final summary" = true := by
  unfold strStartsWith
  rw [String.data_append]
  have h : "Final summary\n\n".data = "Final summary".data ++ ['\n', '\n'] := by decide
  rw [h, List.append_assoc]
  exact chListStarts_append _ _

theorem drDoneHandler_append (s : String) (st : ChatState) (hs : s ≠ "")
    (hlast : ∀ last, st.messages.getLast? = some last →
      ¬(last.role = Role.assistant ∧ strStartsWith last.content "Final summary" = true)) :
    (drDoneHandler (some s) st).messages.length = st.messages.length + 1 ∧
    (drDoneHandler (some s) st).stepIdx = st.stepIdx ∧
    ((∀ i, st.stepIdx "status" = some i → i < st.messages.length) →
      (drDoneHandler (some s) st).messages.getLast? =
        some ⟨Role.assistant, "Final summary\n\n" ++ jsTrim s, false, false⟩) := by
  have hmsgs : (drAppendFinal s { st with isStreaming := false }).messages =
      st.messages ++ [⟨Role.assistant, "Final summary\n\n" ++ jsTrim s, false, false⟩] :=
    drAppendFinal_msgs s _ hlast
  have hstep : (drAppendFinal s { st with isStreaming := false }).stepIdx = st.stepIdx :=
    drAppendFinal_stepIdx s _
  unfold drDoneHandler
  dsimp only
  rw [if_neg hs]
  cases hk : (drAppendFinal s { st with isStreaming := false }).stepIdx "status" with
  | none =>
    simp only [hk]
    refine ⟨by rw [hmsgs]; simp, hstep, fun _ => ?_⟩
    rw [hmsgs]
    exact List.getLast?_concat _
  | some i =>
    simp only [hk]
    refine ⟨?_, ?_, ?_⟩
    · rw [replaceStep_length, hmsgs]; simp
    · rw [replaceStep_stepIdx_eq, hstep]
    · intro hvalid
      have hi : i < st.messages.length := by
        apply hvalid
        rw [← hstep]
        exact hk
      rw [replaceStep_getLast_keep, hmsgs]
      · exact List.getLast?_concat _
      · intro j hj
        rw [hk] at hj
        have hij : j = i := by injection hj.symm
        rw [hmsgs, List.length_append, hij]
        simp
        omega


theorem drDoneHandler_keeps_length (summary : Option String) (st : ChatState) (last : Msg)
    (hl : st.messages.getLast? = some last) (hrole : last.role = Role.assistant)
    (hsw : strStartsWith last.content "Final summary" = true) :
    (drDoneHandler summary st).messages.length = st.messages.length := by
  have hnoop : ∀ s : String, drAppendFinal s { st with isStreaming := false } =
      { st with isStreaming := false } :=
    fun s => drAppendFinal_noop s _ last hl hrole hsw
  unfold drDoneHandler
  dsimp only
  cases summary with
  | none =>
    cases hk : ({ st with isStreaming := false } : ChatState).stepIdx "status" with
    | none => simp only [hk]
    | some i =>
      simp only [hk]
      exact replaceStep_length _ _ _ _ _
  | some s =>
    dsimp only
    by_cases hse : s = ""
    · rw [if_pos hse]
      cases hk : ({ st with isStreaming := false } : ChatState).stepIdx "status" with
      | none => simp only [hk]
      | some i =>
        simp only [hk]
        exact replaceStep_length _ _ _ _ _
    · rw [if_neg hse, hnoop s]
      cases hk : ({ st with isStreaming := false } : ChatState).stepIdx "status" with
      | none => simp only [hk]
      | some i =>
        simp only [hk]
        exact replaceStep_length _ _ _ _ _

/-! ## Concrete states used by the scenario theorems and witnesses -/

/-- Transcript state right after a chat-mode send was accepted: the optimistic
user message and the empty assistant placeholder are appended, `sending` has
been cleared by the finally block and one stream is open. -/
def scenarioStart : ChatState :=
  { threadId := some 1
    messages := [⟨Role.user, "hi", false, false⟩, ⟨Role.assistant, "", false, false⟩]
    stepIdx := fun _ => none
    sending := false
    isStreaming := false
    openStreams := 1 }

/-- Transcript state mid-stream, after the token `partial` was folded into
the assistant placeholder. -/
def scenarioCState : ChatState :=
  { threadId := some 1
    messages := [⟨Role.user, "hi", false, false⟩, ⟨Role.assistant, "partial", false, false⟩]
    stepIdx := fun _ => none
    sending := false
    isStreaming := true
    openStreams := 1 }

/-- Transcript state with an empty assistant placeholder at the tail, used to
exercise the in-place branch of `replaceOrPushAssistant`. -/
def placeholderState : ChatState :=
  { threadId := some 1
    messages := [⟨Role.user, "q", false, false⟩, ⟨Role.assistant, "", false, false⟩]
    stepIdx := fun _ => none
    sending := false
    isStreaming := true
    openStreams := 1 }

/-- Transcript state late in a deep-research run: the status step is
registered at index 1 and the last message is a summary step. -/
def researchDoneState : ChatState :=
  { threadId := some 1
    messages := [⟨Role.user, "q", false, false⟩,
                 ⟨Role.assistant, "Step: Summary update\n\nsum1", false, false⟩]
    stepIdx := fun k => if k = "status" then some 1 else none
    sending := false
    isStreaming := true
    openStreams := 1 }

/-- Transcript state after an earlier send registered the step key `web` at
index 1, with no send in progress. -/
def staleState : ChatState :=
  { threadId := some 1
    messages := [⟨Role.user, "q", false, false⟩,
                 ⟨Role.assistant, "Step: Web research\n\nSources:\n(no sources)", false, false⟩]
    stepIdx := fun k => if k = "web" then some 1 else none
    sending := false
    isStreaming := false
    openStreams := 0 }

/-- Idle state with an established thread and no open stream. -/
def idleState : ChatState :=
  { threadId := some 1
    messages := []
    stepIdx := fun _ => none
    sending := false
    isStreaming := false
    openStreams := 0 }

/-! ## Claim C1 -/

/-- C1: in chat mode, folding the events `ready`, `token("Hel")`,
`token("lo")` onto an optimistic assistant message with empty content yields
assistant content `"Hel lo"`: the default alphanumeric-to-alphanumeric
boundary between two lowercase runs inserts exactly one space. -/
theorem chat_tokens_hel_lo :
    (chatFold [ChatEvent.ready, ChatEvent.token "Hel", ChatEvent.token "lo"]
        scenarioStart).messages =
      [⟨Role.user, "hi", false, false⟩, ⟨Role.assistant, "Hel lo", false, false⟩] := by
  decide

/-! ## Claim C3 -/

/-- C3: an application-level error event or a transport error writes a
formatted warning into the trailing assistant placeholder only if that
placeholder is still empty; when tokens were already streamed into it, the
transcript is left completely unchanged and no earlier message is modified. -/
theorem chat_error_localized (d : Option String) (st : ChatState) (last : Msg)
    (hl : st.messages.getLast? = some last) (hrole : last.role = Role.assistant) :
    (last.content ≠ "" →
      (chatErrorHandler d st).messages = st.messages ∧
      (chatTransportError st).messages = st.messages) ∧
    (last.content = "" →
      (chatErrorHandler d st).messages =
        st.messages.dropLast ++ [{ last with content := errMsgOf d }] ∧
      (chatTransportError st).messages =
        st.messages.dropLast ++ [{ last with content := "⚠️ Sorry, something went wrong." }]) := by
  constructor
  · intro hne
    constructor
    · unfold chatErrorHandler
      simp only [hl]
      rw [if_neg (fun hc => hne hc.2)]
    · unfold chatTransportError
      dsimp only
      simp only [hl]
      rw [if_neg (fun hc => hne hc.2)]
  · intro he
    constructor
    · unfold chatErrorHandler
      simp only [hl]
      rw [if_pos ⟨hrole, he⟩]
    · unfold chatTransportError
      dsimp only
      simp only [hl]
      rw [if_pos ⟨hrole, he⟩]

/-- Witness for C3 at the concrete mid-stream state of Scenario C: after
`token("partial")`, the error event `error({detail:"boom"})` and a transport
error both leave the transcript unchanged. -/
theorem chat_error_localized_wit :
    (chatErrorHandler (some "boom") scenarioCState).messages = scenarioCState.messages ∧
    (chatTransportError scenarioCState).messages = scenarioCState.messages :=
  (chat_error_localized (some "boom") scenarioCState
    ⟨Role.assistant, "partial", false, false⟩ rfl rfl).1 (by decide)

/-! ## Claim C5 -/

/-- C5: `replaceOrPushAssistant(content, opts)` overwrites the last message in
place and registers the key against that index when the last message is an
assistant message with empty content, and otherwise appends a new assistant
message and registers the key against the new index; in either case all other
messages are unchanged (the result is `dropLast` plus the rewritten tail,
respectively the old transcript plus one new message). -/
theorem replaceOrPushAssistant_spec (content : String) (pending completed : Bool)
    (key : Option String) (st : ChatState) :
    (∀ last, st.messages.getLast? = some last → last.role = Role.assistant →
      jsTrim last.content = "" →
      (replaceOrPushAssistant content pending completed key st).messages =
        st.messages.dropLast ++
          [{ last with content := content, pending := pending, completed := completed }] ∧
      (replaceOrPushAssistant content pending completed key st).stepIdx =
        registerKey key (st.messages.length - 1) st.stepIdx) ∧
    ((∀ last, st.messages.getLast? = some last → last.role = Role.assistant →
        jsTrim last.content ≠ "") →
      (replaceOrPushAssistant content pending completed key st).messages =
        st.messages ++ [⟨Role.assistant, content, pending, completed⟩] ∧
      (replaceOrPushAssistant content pending completed key st).stepIdx =
        registerKey key st.messages.length st.stepIdx) := by
  unfold replaceOrPushAssistant
  cases hl : st.messages.getLast? with
  | none =>
    refine ⟨?_, fun _ => ⟨rfl, rfl⟩⟩
    intro last hl' _ _
    cases hl'
  | some last =>
    dsimp only
    by_cases hc : last.role = Role.assistant ∧ (last.content = "" ∨ jsTrim last.content = "")
    · rw [if_pos hc]
      refine ⟨?_, ?_⟩
      · intro last' hl' _ _
        have heq : last' = last := (Option.some.inj hl').symm
        subst heq
        exact ⟨rfl, rfl⟩
      · intro hpush
        exfalso
        have htrim : jsTrim last.content = "" := by
          rcases hc.2 with h0 | h0
          · rw [h0]; rfl
          · exact h0
        exact hpush last rfl hc.1 htrim
    · rw [if_neg hc]
      refine ⟨?_, fun _ => ⟨rfl, rfl⟩⟩
      intro last' hl' hrole htrim
      exfalso
      have heq : last' = last := (Option.some.inj hl').symm
      subst heq
      exact hc ⟨hrole, Or.inr htrim⟩

/-- Witness for C5 at a concrete transcript ending in an empty assistant
placeholder: the placeholder is absorbed in place. -/
theorem replaceOrPushAssistant_spec_wit :
    (replaceOrPushAssistant "Starting deep research…" true false (some "status")
        placeholderState).messages =
      [⟨Role.user, "q", false, false⟩,
       ⟨Role.assistant, "Starting deep research…", true, false⟩] := by
  have h := (replaceOrPushAssistant_spec "Starting deep research…" true false
    (some "status") placeholderState).1 ⟨Role.assistant, "", false, false⟩ rfl rfl rfl
  rw [h.1]
  rfl

/-! ## Claim C6 -/

/-- C6: `replaceStep(key, content, opts)` called with a key that has no
registered index is a no-op — the state is returned unchanged — and the
operation never appends a message as a fallback (the transcript length is
always preserved). -/
theorem replaceStep_unknown_key_noop (key content : String) (pending completed : Bool)
    (st : ChatState) :
    (st.stepIdx key = none → replaceStep key content pending completed st = st) ∧
    (replaceStep key content pending completed st).messages.length = st.messages.length := by
  constructor
  · intro h
    unfold replaceStep
    rw [h]
  · exact replaceStep_length key content pending completed st

/-- Witness for C6: replacing the step `nonexistent` on a state that never
registered it returns the state unchanged. -/
theorem replaceStep_unknown_key_noop_wit :
    replaceStep "nonexistent" "x" false false scenarioCState = scenarioCState :=
  (replaceStep_unknown_key_noop "nonexistent" "x" false false scenarioCState).1 rfl

/-! ## Claim C9 -/

/-- C9: in eda mode, a send with no file attached and a prompt that does not
parse as JSON appends a single instructional assistant message and makes no
backend call (`edaProcess` is never invoked). -/
theorem eda_no_json_short_circuit (st : ChatState) :
    (edaBranchNoFile none st).1.messages = st.messages ++ [edaHintMsg] ∧
    (edaBranchNoFile none st).2 = false :=
  ⟨rfl, rfl⟩

/-! ## Claim C4 -/

/-- C4: invoking the deep-research done handler twice with the same
final-summary payload appends exactly one final-summary message: the first
invocation appends it, and the second invocation finds the last message
already beginning with the final-summary prefix and appends nothing, so the
transcript length after both invocations is the original length plus one.
The hypotheses state the run invariants: the summary is nonempty (a falsy
summary is skipped), any registered status index points into the transcript,
and the final summary has not been rendered yet. -/
theorem drDone_final_summary_once (s : String) (st : ChatState)
    (hs : s ≠ "")
    (hvalid : ∀ i, st.stepIdx "status" = some i → i < st.messages.length)
    (hlast : ∀ last, st.messages.getLast? = some last →
      ¬(last.role = Role.assistant ∧ strStartsWith last.content "Final summary" = true)) :
    (drDoneHandler (some s) st).messages.length = st.messages.length + 1 ∧
    (drDoneHandler (some s) (drDoneHandler (some s) st)).messages.length
      = st.messages.length + 1 := by
  obtain ⟨hlen, hstep, hgl⟩ := drDoneHandler_append s st hs hlast
  have hgl' := hgl hvalid
  refine ⟨hlen, ?_⟩
  rw [drDoneHandler_keeps_length (some s) _ _ hgl' rfl (strStartsWith_finalText _), hlen]

/-- Witness for C4 at a concrete deep-research state: two invocations of the
done handler with summary `final1` grow the two-message transcript to exactly
three messages. -/
theorem drDone_final_summary_once_wit :
    (drDoneHandler (some "final1") researchDoneState).messages.length = 3 ∧
    (drDoneHandler (some "final1")
        (drDoneHandler (some "final1") researchDoneState)).messages.length = 3 :=
  drDone_final_summary_once "final1" researchDoneState (by decide)
    (fun i hi => by
      have h1 : (some 1 : Option Nat) = some i := hi
      have h2 : i = 1 := (Option.some.inj h1).symm
      rw [h2]
      decide)
    (fun last hl => by
      have h1 : last = ⟨Role.assistant, "Step: Summary update\n\nsum1", false, false⟩ :=
        Option.some.inj hl.symm
      rw [h1]
      decide)

/-! ## Claim C7 -/

/-- C7 counterexample: the claim says step-key registrations never survive a
new send action or a history reload, but neither the start of a chat-mode
send nor the chat done reload touches the registry: a key registered during an
earlier send still resolves to its old index instead of `undefined`. -/
theorem stepIdx_stale_cex :
    (sendChat "again" staleState).stepIdx "web" ≠ none ∧
    (chatDoneReload [⟨"user", "q"⟩, ⟨"assistant", "answer"⟩] staleState).stepIdx "web" ≠ none ∧
    (sendChat "again" staleState).stepIdx "web" = some 1 := by
  refine ⟨?_, ?_, ?_⟩ <;> decide

/-- C7 amended: only the deep-research ready handler clears the step
registry (before registering the fresh `status` key), so after it every other
key resolves to `undefined`; the start of a send action and the chat-mode
history reload leave the registry unchanged, so keys registered during an
earlier send may still resolve there. -/
theorem stepIdx_reset_spec (st : ChatState) (k : String) (hk : k ≠ "status")
    (t : String) (hist : List HistMsg) :
    (drReadyHandler st).stepIdx k = none ∧
    (sendBegin t st).1.stepIdx = st.stepIdx ∧
    (chatDoneReload hist st).stepIdx = st.stepIdx := by
  refine ⟨?_, ?_, rfl⟩
  · unfold drReadyHandler replaceOrPushAssistant
    dsimp only
    cases hl : st.messages.getLast? with
    | none => simp [registerKey, hk]
    | some last =>
      dsimp only
      split_ifs <;> simp [registerKey, hk]
  · unfold sendBegin
    split_ifs <;> rfl

/-- Witness for C7 amended at concrete inputs: after the deep-research ready
handler the stale key `web` resolves to `undefined`, while the send entry and
the reload leave the registry of `staleState` unchanged. -/
theorem stepIdx_reset_spec_wit :
    (drReadyHandler staleState).stepIdx "web" = none ∧
    (sendBegin "next question" staleState).1.stepIdx = staleState.stepIdx ∧
    (chatDoneReload [⟨"user", "q"⟩] staleState).stepIdx = staleState.stepIdx :=
  stepIdx_reset_spec staleState "web" (by decide) "next question" [⟨"user", "q"⟩]

/-! ## Claim C8 -/

/-- C8 counterexample: the claim says a send invoked while a previous send
stream is still active is rejected and opens no second stream, but the
`finally` block clears `sending` as soon as the stream callbacks are
registered, so a second send is accepted while the first stream is still open
and a second stream is opened. -/
theorem send_guard_cex :
    (sendChat "first" idleState).openStreams = 1 ∧
    (sendChat "first" idleState).sending = false ∧
    (sendChat "second" (sendChat "first" idleState)).openStreams = 2 := by
  refine ⟨?_, ?_, ?_⟩ <;> decide

/-- C8 amended: the guard rejects a send only while a previous send call is
itself still in progress (`sending` still true), leaving the state unchanged
and opening no stream; once a send's handler registration finishes, the
`finally` block has cleared `sending` even though the stream remains open, so
a subsequent nonempty send is accepted and opens a further stream. -/
theorem send_guard_spec (t : String) (st : ChatState) :
    (st.sending = true → sendChat t st = st) ∧
    (st.threadId ≠ none → st.sending = false → jsTrim t ≠ "" →
      (sendChat t st).openStreams = st.openStreams + 1 ∧
      (sendChat t st).sending = false) := by
  constructor
  · intro h
    have hb : sendBegin t st = (st, false) := by
      unfold sendBegin
      rw [if_pos (Or.inr h)]
    unfold sendChat
    rw [hb]
    rfl
  · intro h1 h2 h3
    have hb : sendBegin t st =
        ({ st with
            sending := true,
            messages := st.messages ++
              [⟨Role.user, jsTrim t, false, false⟩,
               ⟨Role.assistant, "", false, false⟩] }, true) := by
      unfold sendBegin
      rw [if_neg (fun hc => hc.elim h1 (fun hs => by rw [h2] at hs; cases hs)), if_neg h3]
    unfold sendChat
    rw [hb]
    exact ⟨rfl, rfl⟩

/-- Witness for C8 amended at concrete inputs: a send during a busy send is a
no-op, and a send from the idle state opens one stream and ends with
`sending` cleared. -/
theorem send_guard_spec_wit :
    sendChat "x" { idleState with sending := true } = { idleState with sending := true } ∧
    (sendChat "go" idleState).openStreams = idleState.openStreams + 1 :=
  ⟨(send_guard_spec "x" { idleState with sending := true }).1 rfl,
   ((send_guard_spec "go" idleState).2 (by decide) rfl (by decide)).1⟩

end LikhaiPluma
